import Mathlib

/-!
Verification of the manifest-generation pipeline in
scripts/render-templates.py.

The script loads a YAML values document for one environment, renders a
fixed sequence of Jinja2 templates (a shared PostgreSQL unit, two service
units, an optional ingress unit) into an output directory, and finally
writes a kustomization.yaml aggregator listing the produced file names.

The shallow embedding below follows the Python source:

  - Python/YAML values are the inductive type Value; dicts are ordered
    association lists, as Python dicts are insertion-ordered.
  - dict item assignment is insertKV; the double-splat merge of two dicts
    is pymerge (iterate the second dict, inserting into the first).
  - the Jinja2 environment is built without StrictUndefined, so a
    template dereference of an absent context key renders as the empty
    string (the documented behaviour of the default Undefined class);
    renderTemplate implements that semantics.
  - the base64 helper (lambda s: base64.b64encode(s.encode()).decode())
    is b64encode, built from a UTF-8 byte encoding (strBytes) and the
    RFC 4648 sextet encoding (b64encodeCore).
  - main is modelled as a pure function from the values store, the
    template store and the two command-line arguments to an ordered trace
    of filesystem events (mkdir / file writes / the aggregator write)
    plus an optional fatal error; a `some` error stands for the process
    terminating with a non-zero exit status.
-/

/-- A Python value as produced by yaml.safe_load, plus vfunc for the
base64-encoding lambda that load_values inserts into the dict. -/
inductive Value where
  | vstr (s : String)
  | vint (n : Int)
  | vbool (b : Bool)
  | vlist (xs : List Value)
  | vmap (entries : List (String × Value))
  | vfunc

/-- An ordered Python dict (insertion order), as an association list. -/
abbrev Ctx := List (String × Value)

/-- Python truthiness, as used by the if-statement on the ingress flag. -/
def truthy : Value → Bool
  | Value.vstr s => !(s.isEmpty)
  | Value.vint n => decide (n ≠ 0)
  | Value.vbool b => b
  | Value.vlist xs => !(xs.isEmpty)
  | Value.vmap es => !(es.isEmpty)
  | Value.vfunc => true

/-- Stringification of a value as used inside the output-name f-string.
The pipeline only ever formats scalar values this way (service_name is a
string in every values document); structured values get a fixed marker. -/
def valueRepr : Value → String
  | Value.vstr s => s
  | Value.vint n => toString n
  | Value.vbool b => if b then "True" else "False"
  | Value.vlist _ => "<list>"
  | Value.vmap _ => "<dict>"
  | Value.vfunc => "<function>"

/-- Dict lookup (d[k], or the test k in d), first matching key. -/
def lookup : Ctx → String → Option Value
  | [], _ => none
  | (k2, v) :: rest, k => if k = k2 then some v else lookup rest k

/-- Membership test for a key (the Python in operator on a dict). -/
def containsKey (d : Ctx) (k : String) : Bool :=
  d.any (fun p => p.1 = k)

/-- Python dict item assignment d[k] = v: update the existing entry in
place (keeping its position) when the key is present, else append. -/
def insertKV (d : Ctx) (k : String) (v : Value) : Ctx :=
  if containsKey d k then
    d.map (fun p => if p.1 = k then (k, v) else p)
  else
    d ++ [(k, v)]

/-- The double-splat merge of two dicts: start from the first dict and
insert every entry of the second in order, so second-dict values override
first-dict values on shared keys. -/
def pymerge (a b : Ctx) : Ctx :=
  b.foldl (fun d p => insertKV d p.1 p.2) a

/-- The RFC 4648 base64 alphabet, as used by Python base64.b64encode. -/
def b64chars : List Char :=
  "ABCDEFGHIJKLMNOPQRSTUVWXYZabcdefghijklmnopqrstuvwxyz0123456789+/".data

/-- The alphabet character for a sextet value. -/
def b64char (i : Nat) : Char :=
  b64chars.getD i 'A'

/-- The sextet value of an alphabet character, if any. -/
def b64index (c : Char) : Option Nat :=
  b64chars.findIdx? (fun a => a = c)

/-- Base64-encode a byte sequence: three bytes become four alphabet
characters; a trailing group of one or two bytes is padded with =. -/
def b64encodeCore : List Nat → List Char
  | [] => []
  | [a] => [b64char (a / 4), b64char (a % 4 * 16), '=', '=']
  | [a, b] => [b64char (a / 4), b64char (a % 4 * 16 + b / 16),
      b64char (b % 16 * 4), '=']
  | a :: b :: c :: rest =>
      b64char (a / 4) :: b64char (a % 4 * 16 + b / 16) ::
      b64char (b % 16 * 4 + c / 64) :: b64char (c % 64) ::
      b64encodeCore rest

/-- Base64-decode a character sequence (the standard decoding: four
characters yield three bytes, with = padding closing the final group). -/
def b64decodeCore : List Char → Option (List Nat)
  | [] => some []
  | w :: x :: y :: z :: rest =>
      match b64index w, b64index x with
      | some a, some b =>
        if y = '=' then
          if z = '=' ∧ rest = [] then some [a * 4 + b / 16] else none
        else
          match b64index y with
          | some c =>
            if z = '=' then
              if rest = [] then some [a * 4 + b / 16, b % 16 * 16 + c / 4]
              else none
            else
              match b64index z with
              | some d =>
                match b64decodeCore rest with
                | some tl =>
                    some ((a * 4 + b / 16) :: (b % 16 * 16 + c / 4) ::
                      (c % 4 * 64 + d) :: tl)
                | none => none
              | none => none
          | none => none
      | _, _ => none
  | _ => none

/-- UTF-8 encoding of a single unicode scalar value (Python str.encode). -/
def utf8Char (c : Char) : List Nat :=
  let n := c.toNat
  if n < 128 then [n]
  else if n < 2048 then [192 + n / 64, 128 + n % 64]
  else if n < 65536 then [224 + n / 4096, 128 + n / 64 % 64, 128 + n % 64]
  else [240 + n / 262144, 128 + n / 4096 % 64, 128 + n / 64 % 64, 128 + n % 64]

/-- UTF-8 encoding of a string (Python s.encode()), as a byte list. -/
def strBytes (s : String) : List Nat :=
  (s.data.map utf8Char).flatten

/-- The i-th byte of a byte list, defaulting to 0 (only read under an
explicit length guard). -/
def byteAt (l : List Nat) (i : Nat) : Nat :=
  l.getD i 0

/-- A UTF-8 continuation byte. -/
def isCont (x : Nat) : Prop :=
  128 ≤ x ∧ x < 192

instance (x : Nat) : Decidable (isCont x) := by
  unfold isCont
  infer_instance

/-- Decode one UTF-8 scalar value from the front of a byte list, returning
the character and the remaining bytes. Strict decoding, as Python
bytes.decode(): rejects truncated sequences, stray continuation bytes,
overlong forms, surrogate code points and values beyond 0x10FFFF. -/
def utf8DecodeOne (l : List Nat) : Option (Char × List Nat) :=
  if l.length = 0 then none
  else
    let b := byteAt l 0
    if b < 128 then some (Char.ofNat b, l.drop 1)
    else if b < 192 then none
    else if b < 224 then
      if 2 ≤ l.length ∧ isCont (byteAt l 1) then
        if 128 ≤ (b - 192) * 64 + (byteAt l 1 - 128) then
          some (Char.ofNat ((b - 192) * 64 + (byteAt l 1 - 128)), l.drop 2)
        else none
      else none
    else if b < 240 then
      if 3 ≤ l.length ∧ isCont (byteAt l 1) ∧ isCont (byteAt l 2) then
        if 2048 ≤ (b - 224) * 4096 + (byteAt l 1 - 128) * 64 + (byteAt l 2 - 128) ∧
            ((b - 224) * 4096 + (byteAt l 1 - 128) * 64 + (byteAt l 2 - 128) < 55296 ∨
             57343 < (b - 224) * 4096 + (byteAt l 1 - 128) * 64 + (byteAt l 2 - 128)) then
          some (Char.ofNat ((b - 224) * 4096 + (byteAt l 1 - 128) * 64 +
            (byteAt l 2 - 128)), l.drop 3)
        else none
      else none
    else if b < 248 then
      if 4 ≤ l.length ∧ isCont (byteAt l 1) ∧ isCont (byteAt l 2) ∧
          isCont (byteAt l 3) then
        if 65536 ≤ (b - 240) * 262144 + (byteAt l 1 - 128) * 4096 +
              (byteAt l 2 - 128) * 64 + (byteAt l 3 - 128) ∧
            (b - 240) * 262144 + (byteAt l 1 - 128) * 4096 +
              (byteAt l 2 - 128) * 64 + (byteAt l 3 - 128) < 1114112 then
          some (Char.ofNat ((b - 240) * 262144 + (byteAt l 1 - 128) * 4096 +
            (byteAt l 2 - 128) * 64 + (byteAt l 3 - 128)), l.drop 4)
        else none
      else none
    else none

/-- Decode scalars one at a time; the fuel argument only bounds the
iteration count (every step consumes at least one byte, so a fuel equal
to the list length is always enough). -/
def utf8DecodeGo : Nat → List Nat → Option (List Char)
  | _, [] => some []
  | 0, _ :: _ => none
  | Nat.succ n, b :: rest =>
      match utf8DecodeOne (b :: rest) with
      | some (c, rest2) =>
          match utf8DecodeGo n rest2 with
          | some cs => some (c :: cs)
          | none => none
      | none => none

/-- Strict UTF-8 decoding of a byte list (Python bytes.decode()). -/
def utf8Decode (l : List Nat) : Option (List Char) :=
  utf8DecodeGo l.length l

/-- The base64 helper registered by the script, both as the context value
load_values adds and as the Jinja2 filter:
lambda s: base64.b64encode(s.encode()).decode(). -/
def b64encode (s : String) : String :=
  String.mk (b64encodeCore (strBytes s))

/-- The standard inverse of b64encode: base64-decode to bytes, then
UTF-8-decode the bytes back to a string. -/
def b64decodeStr (s : String) : Option String :=
  match b64decodeCore s.data with
  | some bytes =>
      match utf8Decode bytes with
      | some cs => some (String.mk cs)
      | none => none
  | none => none

/-- One template item: literal text or a variable dereference. -/
inductive Item where
  | lit (s : String)
  | var (k : String)

/-- A parsed template is a sequence of items. -/
abbrev Template := List Item

/-- Render one item. The Jinja2 environment is created without
StrictUndefined, so a dereference of a key absent from the context is the
default Undefined value, which stringifies to the empty string. -/
def renderItem (context : Ctx) : Item → String
  | Item.lit s => s
  | Item.var k =>
      match lookup context k with
      | some v => valueRepr v
      | none => ""

/-- template.render(context): concatenate the rendered items. -/
def renderTemplate (context : Ctx) (t : Template) : String :=
  String.join (t.map (renderItem context))

/-- The template directory: template name to parsed template, none when
no such template file exists. -/
abbrev TStore := String → Option Template

/-- The fatal errors of the script; each constructor stands for the
process stopping with a non-zero exit status:
configNotFound - load_values finds no values file and calls sys.exit(1);
keyError - a Python KeyError from values[k] or similar indexing;
typeErr - a TypeError from double-splatting a non-mapping;
attrErr - an AttributeError from calling .get on a non-mapping;
templateNotFound - jinja2 get_template does not resolve the name;
invalidChoice - argparse rejects an environment outside its choices. -/
inductive PErr where
  | configNotFound
  | keyError (k : String)
  | typeErr
  | attrErr
  | templateNotFound (templateName : String)
  | invalidChoice

/-- A rendered artifact: derived output file name plus rendered text. -/
structure RFile where
  name : String
  content : String

/-- Python str.replace with fuel (the fuel is the initial length of the
subject, which is always enough since every step consumes at least one
character when the pattern is nonempty): replace every non-overlapping
occurrence of pat, scanning left to right. -/
def replaceAllAux : Nat → List Char → List Char → List Char → List Char
  | 0, s, _, _ => s
  | Nat.succ n, s, pat, rep =>
      match s with
      | [] => []
      | ch :: rest =>
          if pat ≠ [] ∧ pat.isPrefixOf (ch :: rest) then
            rep ++ replaceAllAux n (List.drop pat.length (ch :: rest)) pat rep
          else
            ch :: replaceAllAux n rest pat rep

/-- Python str.replace(pat, rep) for a nonempty pattern. -/
def pyReplace (s pat rep : String) : String :=
  String.mk (replaceAllAux s.data.length s.data pat.data rep.data)

/-- The output-name computation inside render_template:
output_name = template_name.replace(".j2", ".yaml"), prefixed with
f-string interpolation of context["service_name"] and a dash when the
context contains that key. -/
def outputName (template_name : String) (context : Ctx) : String :=
  match lookup context "service_name" with
  | some v => valueRepr v ++ "-" ++ pyReplace template_name ".j2" ".yaml"
  | none => pyReplace template_name ".j2" ".yaml"

/-- render_template(template_env, template_name, context, output_dir):
resolve the template (TemplateNotFound is fatal), render it, derive the
output name; the returned artifact is what the function writes to disk. -/
def render_template (template_env : TStore) (template_name : String)
    (context : Ctx) : Except PErr RFile :=
  match template_env template_name with
  | none => Except.error (PErr.templateNotFound template_name)
  | some t =>
      Except.ok { name := outputName template_name context,
                  content := renderTemplate context t }

/-- values[k]: KeyError when absent. -/
def getKey (d : Ctx) (k : String) : Except PErr Value :=
  match lookup d k with
  | some v => Except.ok v
  | none => Except.error (PErr.keyError k)

/-- values[k] used as a mapping (for double-splat): KeyError when absent,
TypeError when not a mapping. -/
def getMapKey (d : Ctx) (k : String) : Except PErr Ctx :=
  match lookup d k with
  | some (Value.vmap m) => Except.ok m
  | some _ => Except.error PErr.typeErr
  | none => Except.error (PErr.keyError k)

/-- The context composed for the shared PostgreSQL unit (main, first
render): exactly the three literal keys of the dict display. -/
def postgresCtx (ns ev pg : Value) : Ctx :=
  [("namespace", ns), ("environment", ev), ("postgres", pg)]

/-- The context composed for a service unit: the double-splat merge of
the whole values dict with the service sub-mapping. -/
def serviceContext (values sub : Ctx) : Ctx :=
  pymerge values sub

/-- The context composed for the ingress unit. -/
def ingressCtx (ns ev nm host svcs : Value) : Ctx :=
  [("namespace", ns), ("environment", ev), ("ingress_name", nm),
   ("ingress_host", host), ("services", svcs)]

/-- The guard of the ingress render, as a predicate on the values dict:
the truthiness of values.get("ingress", empty).get("enabled", False).
(When the ingress entry is present but not a mapping the script instead
crashes with an AttributeError; see ingressStep.) -/
def ingressEnabled (values : Ctx) : Bool :=
  match lookup values "ingress" with
  | some (Value.vmap m) =>
      match lookup m "enabled" with
      | some en => truthy en
      | none => false
  | some _ => false
  | none => false

/-- Sequence a value-producing step into the pipeline: on error the run
stops with that error and no further artifact is produced. -/
def seqv {α : Type} (r : Except PErr α)
    (rest : α → List RFile × Option PErr) : List RFile × Option PErr :=
  match r with
  | Except.error e => ([], some e)
  | Except.ok v => rest v

/-- Sequence one render_template call: on success its artifact is written
(recorded in production order) and the pipeline continues. -/
def seqr (r : Except PErr RFile)
    (rest : RFile → List RFile × Option PErr) : List RFile × Option PErr :=
  match r with
  | Except.error e => ([], some e)
  | Except.ok f => (f :: (rest f).1, (rest f).2)

/-- The ingress section of main: values.get("ingress", empty dict)
followed by .get("enabled", False); only a truthy flag renders the
ingress template, and absence of the ingress mapping or of the flag just
skips the unit. A non-mapping ingress entry makes .get raise. -/
def ingressStep (template_env : TStore) (values : Ctx) :
    List RFile × Option PErr :=
  match lookup values "ingress" with
  | none => ([], none)
  | some (Value.vmap m) =>
      match lookup m "enabled" with
      | none => ([], none)
      | some en =>
          if truthy en then
            seqv (getKey values "namespace") (fun ns =>
            seqv (getKey values "environment") (fun ev =>
            seqv (getKey m "name") (fun nm =>
            seqv (getKey m "host") (fun host =>
            seqv (getKey m "services") (fun svcs =>
            seqr (render_template template_env "ingress.j2"
                (ingressCtx ns ev nm host svcs)) (fun _ =>
            ([], none)))))))
          else ([], none)
  | some _ => ([], some PErr.attrErr)

/-- The fixed render sequence of main: the PostgreSQL statefulset with
its three-key context, then deployment and service for python_service,
then deployment and service for nodejs_service (each with the
double-splat merged context), then the optional ingress. Returns the
artifacts in production order plus the error that stopped the run, if
any. -/
def renderAll (template_env : TStore) (values : Ctx) :
    List RFile × Option PErr :=
  seqv (getKey values "namespace") (fun ns =>
  seqv (getKey values "environment") (fun ev =>
  seqv (getKey values "postgres") (fun pg =>
  seqr (render_template template_env "postgres-statefulset.j2"
      (postgresCtx ns ev pg)) (fun _ =>
  seqv (getMapKey values "python_service") (fun psub =>
  seqr (render_template template_env "deployment.j2"
      (serviceContext values psub)) (fun _ =>
  seqr (render_template template_env "service.j2"
      (serviceContext values psub)) (fun _ =>
  seqv (getMapKey values "nodejs_service") (fun nsub =>
  seqr (render_template template_env "deployment.j2"
      (serviceContext values nsub)) (fun _ =>
  seqr (render_template template_env "service.j2"
      (serviceContext values nsub)) (fun _ =>
  ingressStep template_env values))))))))))

/-- The aggregator document: the dict literal written to
kustomization.yaml. -/
structure Kustomization where
  apiVersion : String
  kind : String
  resources : List String

/-- A filesystem effect of one run, in order: the initial
mkdir(parents=True, exist_ok=True) of the per-environment output
directory, one write per rendered artifact, and the final aggregator
write. -/
inductive Event where
  | mkdir (path : String)
  | write (name : String) (content : String)
  | writeK (k : Kustomization)

/-- The observable outcome of a run: the ordered trace of filesystem
events, and the fatal error if the process exited non-zero. -/
structure RunOutcome where
  events : List Event
  error : Option PErr

/-- The parsed values documents, keyed by file path; none when the file
does not exist. -/
abbrev ValuesStore := String → Option Ctx

/-- load_values(environment): exit(1) when
kubernetes/values/(environment).yaml does not exist, else parse it and
add the b64encode lambda under the key "b64encode". -/
def load_values (files : ValuesStore) (environment : String) :
    Except PErr Ctx :=
  match files ("kubernetes/values/" ++ environment ++ ".yaml") with
  | none => Except.error PErr.configNotFound
  | some values => Except.ok (insertKV values "b64encode" Value.vfunc)

/-- The main function of the script (named mainRun here since main is
reserved in Lean): argparse validates the environment choice, the output
directory (output_dir)/(environment) is created, values are loaded, the
fixed render sequence runs, and on full success the kustomization
aggregator listing the produced file names is written last. -/
def mainRun (files : ValuesStore) (template_env : TStore)
    (environment output_dir_arg : String) : RunOutcome :=
  if environment = "dev" ∨ environment = "staging" ∨ environment = "prod" then
    match load_values files environment with
    | Except.error e =>
        { events := [Event.mkdir (output_dir_arg ++ "/" ++ environment)],
          error := some e }
    | Except.ok values =>
        match renderAll template_env values with
        | (fs, some e) =>
            { events := Event.mkdir (output_dir_arg ++ "/" ++ environment) ::
                fs.map (fun f => Event.write f.name f.content),
              error := some e }
        | (fs, none) =>
            { events := (Event.mkdir (output_dir_arg ++ "/" ++ environment) ::
                fs.map (fun f => Event.write f.name f.content)) ++
                [Event.writeK
                  { apiVersion := "kustomize.config.k8s.io/v1beta1",
                    kind := "Kustomization",
                    resources := fs.map (fun f => f.name) }],
              error := none }
  else { events := [], error := some PErr.invalidChoice }

/-- The artifact names written by a trace, in order (the aggregator write
is not an artifact write). -/
def writtenNames (evs : List Event) : List String :=
  evs.filterMap (fun e =>
    match e with
    | Event.write n _ => some n
    | _ => none)

/-- The derived-name rule as the specification states it: swap the
template extension for .yaml and prefix with the unit's service
identifier (the context's service_name entry) and a dash exactly when
the unit carries one. -/
def unitName (context : Ctx) (base : String) : String :=
  match lookup context "service_name" with
  | some v => valueRepr v ++ "-" ++ base
  | none => base

/-- A small example values document (no ingress section): namespace,
environment, the postgres sub-mapping and the two service sub-mappings. -/
def exvals : Ctx :=
  [("namespace", Value.vstr "demo"), ("environment", Value.vstr "dev"),
   ("postgres", Value.vmap [("storage_size", Value.vstr "1Gi")]),
   ("python_service", Value.vmap [("service_name", Value.vstr "api")]),
   ("nodejs_service", Value.vmap [("service_name", Value.vstr "web")])]

/-- An example template directory holding the four fixed templates. -/
def exstore : TStore := fun n =>
  if n = "postgres-statefulset.j2" then some [Item.lit "pg"]
  else if n = "deployment.j2" then some [Item.lit "d"]
  else if n = "service.j2" then some [Item.lit "s"]
  else if n = "ingress.j2" then some [Item.lit "i"]
  else none

/-- An example values filesystem with exvals as the dev document. -/
def exfiles : ValuesStore := fun p =>
  if p = "kubernetes/values/dev.yaml" then some exvals else none

/-- exvals after load_values has added the b64encode helper. -/
def exloaded : Ctx :=
  insertKV exvals "b64encode" Value.vfunc

/-- The artifacts renderAll produces from exloaded and exstore. -/
def exfs : List RFile :=
  [{ name := "postgres-statefulset.yaml", content := "pg" },
   { name := "api-deployment.yaml", content := "d" },
   { name := "api-service.yaml", content := "s" },
   { name := "web-deployment.yaml", content := "d" },
   { name := "web-service.yaml", content := "s" }]

/-- A values document like exvals, used to exercise the undefined-key
behaviour of the binder. -/
def c1vals : Ctx := exvals

/-- A template directory whose deployment template dereferences the key
"replicas", which no composed context contains. -/
def c1store : TStore := fun n =>
  if n = "postgres-statefulset.j2" then some [Item.lit "pg"]
  else if n = "deployment.j2" then some [Item.var "replicas"]
  else if n = "service.j2" then some [Item.lit "s"]
  else none

/-- The values filesystem serving c1vals for dev. -/
def c1files : ValuesStore := fun p =>
  if p = "kubernetes/values/dev.yaml" then some c1vals else none

/-- A values document in which both services share one service_name, so
the two deployment artifacts (and the two service artifacts) collide on
their derived output names. -/
def collideVals (s : String) : Ctx :=
  [("namespace", Value.vstr "demo"), ("environment", Value.vstr "dev"),
   ("postgres", Value.vmap []),
   ("python_service", Value.vmap [("service_name", Value.vstr s)]),
   ("nodejs_service", Value.vmap [("service_name", Value.vstr s)])]

/-- A template directory for the collision scenario. -/
def c3store : TStore := fun n =>
  if n = "postgres-statefulset.j2" then some [Item.lit "pg"]
  else if n = "deployment.j2" then some [Item.lit "d"]
  else if n = "service.j2" then some [Item.lit "s"]
  else none

/-- The values filesystem serving collideVals "api" for dev. -/
def c3files : ValuesStore := fun p =>
  if p = "kubernetes/values/dev.yaml" then some (collideVals "api") else none

/-- A values document whose ingress enabled flag is the string "false"
(a truthy Python value that is not the boolean True). -/
def c8vals : Ctx :=
  [("namespace", Value.vstr "demo"), ("environment", Value.vstr "dev"),
   ("postgres", Value.vmap []),
   ("python_service", Value.vmap [("service_name", Value.vstr "api")]),
   ("nodejs_service", Value.vmap [("service_name", Value.vstr "web")]),
   ("ingress", Value.vmap
     [("enabled", Value.vstr "false"), ("name", Value.vstr "ing"),
      ("host", Value.vstr "example.com"), ("services", Value.vlist [])])]

/-- The values filesystem serving c8vals for dev. -/
def c8files : ValuesStore := fun p =>
  if p = "kubernetes/values/dev.yaml" then some c8vals else none

theorem lookup_eq_none_of_not_contains {d : Ctx} {k : String}
    (h : containsKey d k = false) : lookup d k = none := by
  induction d with
  | nil => rfl
  | cons p rest ih =>
    simp only [containsKey, List.any_cons, Bool.or_eq_false_iff,
      decide_eq_false_iff_not] at h
    obtain ⟨p1, p2⟩ := p
    simp only [lookup]
    rw [if_neg (fun hk => h.1 (by simpa using hk.symm))]
    exact ih (by simpa [containsKey] using h.2)

theorem lookup_eq_none_of_not_mem {d : Ctx} {k : String}
    (h : k ∉ d.map Prod.fst) : lookup d k = none := by
  induction d with
  | nil => rfl
  | cons p rest ih =>
    simp only [List.map_cons, List.mem_cons, not_or] at h
    obtain ⟨p1, p2⟩ := p
    simp only [lookup]
    rw [if_neg (fun hk => h.1 hk)]
    exact ih h.2

theorem lookup_append (d e : Ctx) (k : String) :
    lookup (d ++ e) k =
      match lookup d k with
      | some v => some v
      | none => lookup e k := by
  induction d with
  | nil => simp [lookup]
  | cons p rest ih =>
    obtain ⟨p1, p2⟩ := p
    by_cases hk : k = p1
    · simp [lookup, hk]
    · simp [lookup, hk, ih]

theorem lookup_map_replace_ne (d : Ctx) (k : String) (v : Value)
    {k2 : String} (h : k2 ≠ k) :
    lookup (d.map (fun p => if p.1 = k then (k, v) else p)) k2 = lookup d k2 := by
  induction d with
  | nil => rfl
  | cons p rest ih =>
    obtain ⟨p1, p2⟩ := p
    by_cases hp : p1 = k
    · subst hp
      have hh : (if (p1, p2).1 = p1 then (p1, v) else (p1, p2)) = (p1, v) := by
        simp
      rw [List.map_cons, hh]
      simp only [lookup]
      rw [if_neg h, if_neg h]
      exact ih
    · have hh : (if (p1, p2).1 = k then (k, v) else (p1, p2)) = (p1, p2) := by
        simp [hp]
      rw [List.map_cons, hh]
      simp only [lookup]
      by_cases h2 : k2 = p1
      · rw [if_pos h2, if_pos h2]
      · rw [if_neg h2, if_neg h2]
        exact ih

theorem lookup_map_replace_self (d : Ctx) (k : String) (v : Value)
    (h : containsKey d k = true) :
    lookup (d.map (fun p => if p.1 = k then (k, v) else p)) k = some v := by
  induction d with
  | nil => simp [containsKey] at h
  | cons p rest ih =>
    obtain ⟨p1, p2⟩ := p
    by_cases hp : p1 = k
    · subst hp
      have hh : (if (p1, p2).1 = p1 then (p1, v) else (p1, p2)) = (p1, v) := by
        simp
      rw [List.map_cons, hh]
      simp [lookup]
    · simp only [containsKey, List.any_cons, Bool.or_eq_true,
        decide_eq_true_eq] at h
      rcases h with h | h
      · exact absurd h hp
      · have hh : (if (p1, p2).1 = k then (k, v) else (p1, p2)) = (p1, p2) := by
          simp [hp]
        rw [List.map_cons, hh]
        simp only [lookup]
        rw [if_neg (fun hk => hp hk.symm)]
        exact ih (by simpa [containsKey] using h)

theorem lookup_insertKV (d : Ctx) (k : String) (v : Value) (k2 : String) :
    lookup (insertKV d k v) k2 = if k2 = k then some v else lookup d k2 := by
  unfold insertKV
  by_cases hc : containsKey d k
  · rw [if_pos hc]
    by_cases h2 : k2 = k
    · subst h2
      rw [if_pos rfl]
      exact lookup_map_replace_self d k2 v hc
    · rw [if_neg h2]
      exact lookup_map_replace_ne d k v h2
  · rw [if_neg hc]
    rw [lookup_append]
    by_cases h2 : k2 = k
    · subst h2
      rw [lookup_eq_none_of_not_contains (Bool.eq_false_iff.mpr hc)]
      simp [lookup]
    · rw [if_neg h2]
      cases hl : lookup d k2 with
      | some w => rfl
      | none => simp [lookup, h2]

theorem lookup_pymerge_of_none (g s : Ctx) (k : String)
    (h : lookup s k = none) : lookup (pymerge g s) k = lookup g k := by
  induction s generalizing g with
  | nil => rfl
  | cons p rest ih =>
    obtain ⟨p1, p2⟩ := p
    simp only [lookup] at h
    by_cases hk : k = p1
    · rw [if_pos hk] at h
      exact absurd h (by simp)
    · rw [if_neg hk] at h
      show lookup (pymerge (insertKV g p1 p2) rest) k = lookup g k
      rw [ih (insertKV g p1 p2) h, lookup_insertKV, if_neg hk]

theorem lookup_pymerge (g s : Ctx) (k : String)
    (h : (s.map Prod.fst).Nodup) :
    lookup (pymerge g s) k =
      match lookup s k with
      | some v => some v
      | none => lookup g k := by
  induction s generalizing g with
  | nil => rfl
  | cons p rest ih =>
    obtain ⟨p1, p2⟩ := p
    simp only [List.map_cons, List.nodup_cons] at h
    show lookup (pymerge (insertKV g p1 p2) rest) k =
      match lookup ((p1, p2) :: rest) k with
      | some v => some v
      | none => lookup g k
    by_cases hk : k = p1
    · subst hk
      have hrest : lookup rest k = none := lookup_eq_none_of_not_mem h.1
      rw [lookup_pymerge_of_none _ _ _ hrest, lookup_insertKV, if_pos rfl]
      simp [lookup]
    · rw [ih (insertKV g p1 p2) h.2]
      simp only [lookup, if_neg hk]
      cases lookup rest k with
      | some w => rfl
      | none => rw [lookup_insertKV, if_neg hk]

theorem char_valid_nat (c : Char) :
    c.toNat < 55296 ∨ (57343 < c.toNat ∧ c.toNat < 1114112) := by
  rcases c.valid with h | ⟨h1, h2⟩
  · left; exact h
  · right; exact ⟨h1, h2⟩

set_option maxHeartbeats 2000000 in
theorem utf8DecodeOne_utf8Char (c : Char) (bs : List Nat) :
    utf8DecodeOne (utf8Char c ++ bs) = some (c, bs) := by
  have hv := char_valid_nat c
  unfold utf8Char
  by_cases h1 : c.toNat < 128
  · rw [if_pos h1]
    simp only [utf8DecodeOne, byteAt, List.cons_append, List.nil_append,
      List.getD_cons_zero, List.getD_cons_succ, List.length_cons, isCont]
    split_ifs <;> first | (exfalso; omega) | simp_all
  · rw [if_neg h1]
    by_cases h2 : c.toNat < 2048
    · rw [if_pos h2]
      have hE : (192 + c.toNat / 64 - 192) * 64 + (128 + c.toNat % 64 - 128)
          = c.toNat := by omega
      simp only [utf8DecodeOne, byteAt, List.cons_append, List.nil_append,
        List.getD_cons_zero, List.getD_cons_succ, List.length_cons, isCont]
      split_ifs <;> first | (exfalso; omega) | simp_all
    · rw [if_neg h2]
      by_cases h3 : c.toNat < 65536
      · rw [if_pos h3]
        have hE : (224 + c.toNat / 4096 - 224) * 4096 +
            (128 + c.toNat / 64 % 64 - 128) * 64 + (128 + c.toNat % 64 - 128)
            = c.toNat := by omega
        simp only [utf8DecodeOne, byteAt, List.cons_append, List.nil_append,
          List.getD_cons_zero, List.getD_cons_succ, List.length_cons, isCont]
        split_ifs <;> first | (exfalso; omega) | simp_all
      · rw [if_neg h3]
        have hE : (240 + c.toNat / 262144 - 240) * 262144 +
            (128 + c.toNat / 4096 % 64 - 128) * 4096 +
            (128 + c.toNat / 64 % 64 - 128) * 64 + (128 + c.toNat % 64 - 128)
            = c.toNat := by omega
        simp only [utf8DecodeOne, byteAt, List.cons_append, List.nil_append,
          List.getD_cons_zero, List.getD_cons_succ, List.length_cons, isCont]
        split_ifs <;> first | (exfalso; omega) | simp_all

theorem utf8Char_ne_nil (c : Char) : utf8Char c ≠ [] := by
  unfold utf8Char
  simp only []
  split_ifs <;> simp

theorem utf8DecodeGo_flatten :
    ∀ (cs : List Char) (n : Nat),
      ((cs.map utf8Char).flatten).length ≤ n →
      utf8DecodeGo n ((cs.map utf8Char).flatten) = some cs := by
  intro cs
  induction cs with
  | nil =>
    intro n _
    cases n <;> rfl
  | cons c rest ih =>
    intro n hn
    simp only [List.map_cons, List.flatten_cons] at hn ⊢
    obtain ⟨b, t, hb⟩ : ∃ b t, utf8Char c = b :: t := by
      cases hu : utf8Char c with
      | nil => exact absurd hu (utf8Char_ne_nil c)
      | cons b t => exact ⟨b, t, rfl⟩
    cases n with
    | zero =>
      exfalso
      rw [hb] at hn
      simp at hn
    | succ n2 =>
      rw [hb, List.cons_append]
      have hone : utf8DecodeOne (b :: (t ++ ((rest.map utf8Char).flatten)))
          = some (c, (rest.map utf8Char).flatten) := by
        rw [← List.cons_append, ← hb]
        exact utf8DecodeOne_utf8Char c _
      have hrec : utf8DecodeGo n2 ((rest.map utf8Char).flatten) = some rest := by
        apply ih
        rw [hb] at hn
        simp only [List.cons_append, List.length_cons, List.length_append] at hn
        omega
      simp only [utf8DecodeGo, hone, hrec]

theorem utf8Decode_strBytes (s : String) : utf8Decode (strBytes s) = some s.data := by
  unfold utf8Decode strBytes
  exact utf8DecodeGo_flatten s.data _ (Nat.le_refl _)

theorem utf8Char_lt (c : Char) : ∀ b ∈ utf8Char c, b < 256 := by
  have hv := char_valid_nat c
  unfold utf8Char
  intro b hb
  by_cases h1 : c.toNat < 128
  · simp only [if_pos h1, List.mem_singleton] at hb
    omega
  · rw [if_neg h1] at hb
    by_cases h2 : c.toNat < 2048
    · simp only [if_pos h2, List.mem_cons, List.not_mem_nil, or_false] at hb
      rcases hb with hb | hb <;> omega
    · rw [if_neg h2] at hb
      by_cases h3 : c.toNat < 65536
      · simp only [if_pos h3, List.mem_cons, List.not_mem_nil, or_false] at hb
        rcases hb with hb | hb | hb <;> omega
      · simp only [if_neg h3, List.mem_cons, List.not_mem_nil, or_false] at hb
        rcases hb with hb | hb | hb | hb <;> omega

theorem strBytes_lt (s : String) : ∀ b ∈ strBytes s, b < 256 := by
  intro b hb
  unfold strBytes at hb
  rw [List.mem_flatten] at hb
  obtain ⟨l, hl, hbl⟩ := hb
  rw [List.mem_map] at hl
  obtain ⟨c, _, rfl⟩ := hl
  exact utf8Char_lt c b hbl

theorem b64index_b64char_fin : ∀ i : Fin 64, b64index (b64char i.val) = some i.val := by
  decide

theorem b64char_ne_pad_fin : ∀ i : Fin 64, b64char i.val ≠ '=' := by
  decide

theorem b64index_b64char {i : Nat} (h : i < 64) : b64index (b64char i) = some i :=
  b64index_b64char_fin ⟨i, h⟩

theorem b64char_ne_pad {i : Nat} (h : i < 64) : b64char i ≠ '=' :=
  b64char_ne_pad_fin ⟨i, h⟩

theorem b64_roundtrip : ∀ l : List Nat, (∀ b ∈ l, b < 256) →
    b64decodeCore (b64encodeCore l) = some l
  | [], _ => rfl
  | [a], h => by
      have ha : a < 256 := h a (by simp)
      have h1 : b64index (b64char (a / 4)) = some (a / 4) :=
        b64index_b64char (by omega)
      have h2 : b64index (b64char (a % 4 * 16)) = some (a % 4 * 16) :=
        b64index_b64char (by omega)
      simp only [b64encodeCore, b64decodeCore, h1, h2, if_pos, and_self,
        if_true, reduceIte]
      simp only [Option.some.injEq, List.cons.injEq, and_true]
      omega
  | [a, b], h => by
      have ha : a < 256 := h a (by simp)
      have hb : b < 256 := h b (by simp)
      have h1 : b64index (b64char (a / 4)) = some (a / 4) :=
        b64index_b64char (by omega)
      have h2 : b64index (b64char (a % 4 * 16 + b / 16)) = some (a % 4 * 16 + b / 16) :=
        b64index_b64char (by omega)
      have h3 : b64index (b64char (b % 16 * 4)) = some (b % 16 * 4) :=
        b64index_b64char (by omega)
      have hne : b64char (b % 16 * 4) ≠ '=' := b64char_ne_pad (by omega)
      simp only [b64encodeCore, b64decodeCore, h1, h2, h3, if_neg hne, reduceIte]
      simp only [Option.some.injEq, List.cons.injEq, and_true]
      omega
  | a :: b :: c :: rest, h => by
      have ha : a < 256 := h a (by simp)
      have hb : b < 256 := h b (by simp)
      have hc : c < 256 := h c (by simp)
      have h1 : b64index (b64char (a / 4)) = some (a / 4) :=
        b64index_b64char (by omega)
      have h2 : b64index (b64char (a % 4 * 16 + b / 16)) = some (a % 4 * 16 + b / 16) :=
        b64index_b64char (by omega)
      have h3 : b64index (b64char (b % 16 * 4 + c / 64)) = some (b % 16 * 4 + c / 64) :=
        b64index_b64char (by omega)
      have h4 : b64index (b64char (c % 64)) = some (c % 64) :=
        b64index_b64char (by omega)
      have hne3 : b64char (b % 16 * 4 + c / 64) ≠ '=' := b64char_ne_pad (by omega)
      have hne4 : b64char (c % 64) ≠ '=' := b64char_ne_pad (by omega)
      have ih : b64decodeCore (b64encodeCore rest) = some rest :=
        b64_roundtrip rest (fun x hx => h x (by simp [hx]))
      simp only [b64encodeCore, b64decodeCore, h1, h2, h3, h4,
        if_neg hne3, if_neg hne4, ih]
      simp only [Option.some.injEq, List.cons.injEq, and_true]
      refine ⟨by omega, by omega, by omega⟩

theorem b64_roundtrip_str (s : String) : b64decodeStr (b64encode s) = some s := by
  obtain ⟨d⟩ := s
  simp only [b64decodeStr, b64encode,
    b64_roundtrip (strBytes (String.mk d)) (strBytes_lt (String.mk d)),
    utf8Decode_strBytes (String.mk d)]

theorem seqv_none {α : Type} {r : Except PErr α}
    {rest : α → List RFile × Option PErr} {files : List RFile}
    (h : seqv r rest = (files, none)) :
    ∃ v, r = Except.ok v ∧ rest v = (files, none) := by
  cases r with
  | error e => simp [seqv] at h
  | ok v => exact ⟨v, rfl, h⟩

theorem seqr_none {r : Except PErr RFile}
    {rest : RFile → List RFile × Option PErr} {files : List RFile}
    (h : seqr r rest = (files, none)) :
    ∃ f fs, r = Except.ok f ∧ rest f = (fs, none) ∧ files = f :: fs := by
  cases r with
  | error e => simp [seqr] at h
  | ok f =>
    have hs : seqr (Except.ok f) rest = (f :: (rest f).1, (rest f).2) := rfl
    rw [hs] at h
    have h1 := congrArg Prod.fst h
    have h2 := congrArg Prod.snd h
    simp only at h1 h2
    refine ⟨f, (rest f).1, rfl, ?_, h1.symm⟩
    rw [← h2]

theorem render_template_name {template_env : TStore} {tname : String}
    {context : Ctx} {f : RFile}
    (h : render_template template_env tname context = Except.ok f) :
    f.name = outputName tname context := by
  unfold render_template at h
  cases hs : template_env tname with
  | none =>
    rw [hs] at h
    exact absurd h (by simp)
  | some t =>
    rw [hs] at h
    simp only [Except.ok.injEq] at h
    rw [← h]

theorem outputName_pg (ns ev pg : Value) :
    outputName "postgres-statefulset.j2" (postgresCtx ns ev pg)
      = "postgres-statefulset.yaml" := rfl

theorem outputName_ing (ns ev nm host svcs : Value) :
    outputName "ingress.j2" (ingressCtx ns ev nm host svcs)
      = "ingress.yaml" := rfl

theorem outputName_dep (context : Ctx) :
    outputName "deployment.j2" context = unitName context "deployment.yaml" := by
  unfold outputName unitName
  cases lookup context "service_name" <;> rfl

theorem outputName_svc (context : Ctx) :
    outputName "service.j2" context = unitName context "service.yaml" := by
  unfold outputName unitName
  cases lookup context "service_name" <;> rfl

theorem data_append (a b : String) : (a ++ b).data = a.data ++ b.data := rfl

theorem append_ne_fixed {b t : String} (p : String)
    (hlen : b.data.length ≤ t.data.length)
    (hne : b.data ≠ t.data.drop (t.data.length - b.data.length)) :
    p ++ b ≠ t := by
  intro h
  apply hne
  have hd : p.data ++ b.data = t.data := by
    rw [← data_append, h]
  have hplen : p.data.length = t.data.length - b.data.length := by
    have hl := congrArg List.length hd
    simp only [List.length_append] at hl
    omega
  calc b.data = (p.data ++ b.data).drop p.data.length := by
        rw [List.drop_left]
    _ = t.data.drop (t.data.length - b.data.length) := by rw [hd, hplen]

theorem unitName_ne_kustom (context : Ctx) (base : String)
    (hb : base = "deployment.yaml" ∨ base = "service.yaml")
    : unitName context base ≠ "kustomization.yaml" := by
  unfold unitName
  cases hl : lookup context "service_name" with
  | none =>
    rcases hb with hb | hb <;> rw [hb] <;> decide
  | some v =>
    rcases hb with hb | hb <;> rw [hb]
    · exact append_ne_fixed (valueRepr v ++ "-") (by decide) (by decide)
    · exact append_ne_fixed (valueRepr v ++ "-") (by decide) (by decide)

theorem ingressStep_none {template_env : TStore} {values : Ctx}
    {tail : List RFile}
    (h : ingressStep template_env values = (tail, none)) :
    (ingressEnabled values = false ∧ tail = []) ∨
    (ingressEnabled values = true ∧
      ∃ ns ev nm host svcs f,
        render_template template_env "ingress.j2" (ingressCtx ns ev nm host svcs)
          = Except.ok f ∧ tail = [f]) := by
  unfold ingressStep at h
  cases hi : lookup values "ingress" with
  | none =>
    simp only [hi] at h
    left
    refine ⟨by simp only [ingressEnabled, hi], ?_⟩
    have := congrArg Prod.fst h
    simpa using this.symm
  | some v =>
    simp only [hi] at h
    cases v with
    | vmap m =>
      cases he : lookup m "enabled" with
      | none =>
        simp only [he] at h
        left
        refine ⟨by simp only [ingressEnabled, hi, he], ?_⟩
        have := congrArg Prod.fst h
        simpa using this.symm
      | some en =>
        simp only [he] at h
        by_cases ht : truthy en = true
        · rw [if_pos ht] at h
          right
          refine ⟨by simp only [ingressEnabled, hi, he]; exact ht, ?_⟩
          obtain ⟨ns, hns, h⟩ := seqv_none h
          obtain ⟨ev, hev, h⟩ := seqv_none h
          obtain ⟨nm, hnm, h⟩ := seqv_none h
          obtain ⟨host, hhost, h⟩ := seqv_none h
          obtain ⟨svcs, hsvcs, h⟩ := seqv_none h
          obtain ⟨f, fs, hf, hrest, htail⟩ := seqr_none h
          have hfs : fs = [] := by
            have := congrArg Prod.fst hrest
            simpa using this.symm
          exact ⟨ns, ev, nm, host, svcs, f, hf, by rw [htail, hfs]⟩
        · rw [if_neg ht] at h
          left
          refine ⟨?_, ?_⟩
          · simp only [ingressEnabled, hi, he]
            simpa using ht
          · have := congrArg Prod.fst h
            simpa using this.symm
    | vstr s =>
      exact absurd (congrArg Prod.snd h) (by simp)
    | vint n =>
      exact absurd (congrArg Prod.snd h) (by simp)
    | vbool b =>
      exact absurd (congrArg Prod.snd h) (by simp)
    | vlist xs =>
      exact absurd (congrArg Prod.snd h) (by simp)
    | vfunc =>
      exact absurd (congrArg Prod.snd h) (by simp)

theorem renderAll_none {template_env : TStore} {values : Ctx}
    {files : List RFile}
    (h : renderAll template_env values = (files, none)) :
    ∃ ns ev pg psub nsub f1 f2 f3 f4 f5 tail,
      getKey values "namespace" = Except.ok ns ∧
      getKey values "environment" = Except.ok ev ∧
      getKey values "postgres" = Except.ok pg ∧
      render_template template_env "postgres-statefulset.j2"
        (postgresCtx ns ev pg) = Except.ok f1 ∧
      getMapKey values "python_service" = Except.ok psub ∧
      render_template template_env "deployment.j2"
        (serviceContext values psub) = Except.ok f2 ∧
      render_template template_env "service.j2"
        (serviceContext values psub) = Except.ok f3 ∧
      getMapKey values "nodejs_service" = Except.ok nsub ∧
      render_template template_env "deployment.j2"
        (serviceContext values nsub) = Except.ok f4 ∧
      render_template template_env "service.j2"
        (serviceContext values nsub) = Except.ok f5 ∧
      ingressStep template_env values = (tail, none) ∧
      files = f1 :: f2 :: f3 :: f4 :: f5 :: tail := by
  unfold renderAll at h
  obtain ⟨ns, hns, h⟩ := seqv_none h
  obtain ⟨ev, hev, h⟩ := seqv_none h
  obtain ⟨pg, hpg, h⟩ := seqv_none h
  obtain ⟨f1, fs1, hf1, h, hfiles⟩ := seqr_none h
  obtain ⟨psub, hpsub, h⟩ := seqv_none h
  obtain ⟨f2, fs2, hf2, h, hfs1⟩ := seqr_none h
  obtain ⟨f3, fs3, hf3, h, hfs2⟩ := seqr_none h
  obtain ⟨nsub, hnsub, h⟩ := seqv_none h
  obtain ⟨f4, fs4, hf4, h, hfs3⟩ := seqr_none h
  obtain ⟨f5, fs5, hf5, h, hfs4⟩ := seqr_none h
  exact ⟨ns, ev, pg, psub, nsub, f1, f2, f3, f4, f5, fs5,
    hns, hev, hpg, hf1, hpsub, hf2, hf3, hnsub, hf4, hf5, h,
    by rw [hfiles, hfs1, hfs2, hfs3, hfs4]⟩

theorem mainRun_ok {files : ValuesStore} {template_env : TStore}
    {environment output_dir_arg : String}
    (h : (mainRun files template_env environment output_dir_arg).error = none) :
    ∃ values fs,
      load_values files environment = Except.ok values ∧
      renderAll template_env values = (fs, none) ∧
      (mainRun files template_env environment output_dir_arg).events =
        (Event.mkdir (output_dir_arg ++ "/" ++ environment) ::
          fs.map (fun f => Event.write f.name f.content)) ++
          [Event.writeK
            { apiVersion := "kustomize.config.k8s.io/v1beta1",
              kind := "Kustomization",
              resources := fs.map (fun f => f.name) }] := by
  unfold mainRun at h ⊢
  by_cases henv : environment = "dev" ∨ environment = "staging" ∨ environment = "prod"
  · rw [if_pos henv] at h ⊢
    cases hl : load_values files environment with
    | error e =>
      rw [hl] at h
      exact absurd h (by simp)
    | ok values =>
      simp only [hl] at h ⊢
      cases hra : renderAll template_env values with
      | mk fs err =>
        cases err with
        | some e =>
          simp only [hra] at h
          exact absurd h (by simp)
        | none =>
          simp only [hra]
          exact ⟨values, fs, rfl, hra, rfl⟩
  · rw [if_neg henv] at h
    exact absurd h (by simp)

theorem getKey_ok {d : Ctx} {k : String} {v : Value}
    (h : getKey d k = Except.ok v) : lookup d k = some v := by
  unfold getKey at h
  cases hl : lookup d k with
  | none =>
    rw [hl] at h
    exact absurd h (by simp)
  | some w =>
    rw [hl] at h
    simp only [Except.ok.injEq] at h
    rw [h]

theorem containsKey_eq_false_of_lookup_none {d : Ctx} {k : String}
    (h : lookup d k = none) : containsKey d k = false := by
  induction d with
  | nil => rfl
  | cons p rest ih =>
    obtain ⟨p1, p2⟩ := p
    simp only [lookup] at h
    by_cases hk : k = p1
    · rw [if_pos hk] at h
      exact absurd h (by simp)
    · rw [if_neg hk] at h
      simp only [containsKey, List.any_cons, Bool.or_eq_false_iff]
      constructor
      · simpa using fun he => hk he.symm
      · simpa [containsKey] using ih h

/-- C1 counterexample: the deployment template dereferences the key
"replicas", which is absent from the composed service context, yet the
run succeeds: the missing key renders as the empty string, the artifact
for that unit is written (with empty content), the later units render,
and no error is reported. -/
theorem c1_counterexample :
    (mainRun c1files c1store "dev" "out").error = none ∧
    (mainRun c1files c1store "dev" "out").events =
      [Event.mkdir "out/dev",
       Event.write "postgres-statefulset.yaml" "pg",
       Event.write "api-deployment.yaml" "",
       Event.write "api-service.yaml" "s",
       Event.write "web-deployment.yaml" "",
       Event.write "web-service.yaml" "s",
       Event.writeK
         { apiVersion := "kustomize.config.k8s.io/v1beta1",
           kind := "Kustomization",
           resources := ["postgres-statefulset.yaml", "api-deployment.yaml",
             "api-service.yaml", "web-deployment.yaml", "web-service.yaml"] }] ∧
    lookup (serviceContext (insertKV c1vals "b64encode" Value.vfunc)
      [("service_name", Value.vstr "api")]) "replicas" = none :=
  ⟨rfl, rfl, rfl⟩

/-- C1 (amended): binding a template that dereferences a context key
absent from the BindingContext does not fail: with the default Jinja2
undefined the dereference renders as the empty string, the bind succeeds
and the artifact is produced. -/
theorem c1_missing_key_renders_empty (template_env : TStore) (tname : String)
    (context : Ctx) (t : Template) (k : String)
    (ht : template_env tname = some t) (hk : lookup context k = none)
    (hmem : Item.var k ∈ t) :
    (∃ f, render_template template_env tname context = Except.ok f ∧
      f.content = renderTemplate context t) ∧
    renderItem context (Item.var k) = "" := by
  constructor
  · refine ⟨{ name := outputName tname context,
              content := renderTemplate context t }, ?_, rfl⟩
    unfold render_template
    rw [ht]
  · simp only [renderItem, hk]

/-- Witness for c1_missing_key_renders_empty at a concrete store,
template and empty context. -/
theorem c1_missing_key_renders_empty_witness :
    ((fun n => if n = "t.j2" then some [Item.var "replicas"] else none) "t.j2"
        = some [Item.var "replicas"]) ∧
    lookup [] "replicas" = none ∧
    Item.var "replicas" ∈ [Item.var "replicas"] ∧
    ((∃ f, render_template
        (fun n => if n = "t.j2" then some [Item.var "replicas"] else none)
        "t.j2" [] = Except.ok f ∧
        f.content = renderTemplate [] [Item.var "replicas"]) ∧
      renderItem [] (Item.var "replicas") = "") :=
  ⟨rfl, rfl, by simp,
    c1_missing_key_renders_empty _ _ _ _ _ rfl rfl (by simp)⟩

/-- C2 counterexample: with no values file for dev, the run does fail
with ConfigNotFound and writes no file, but the output directory has
already been created (the mkdir event precedes the failed load), so the
filesystem is not unchanged. -/
theorem c2_counterexample :
    mainRun (fun _ => none) (fun _ => none) "dev" "kubernetes/rendered" =
      { events := [Event.mkdir "kubernetes/rendered/dev"],
        error := some PErr.configNotFound } :=
  rfl

/-- C2 (amended): when the backing values document for a valid
environment does not exist, the run fails fatally with ConfigNotFound
and exits non-zero, and no file is written into the output directory;
however the output directory itself (with parents) is created before the
configuration is loaded, so the filesystem is not left unchanged. -/
theorem c2_confignotfound_after_mkdir (files : ValuesStore)
    (template_env : TStore) (environment output_dir_arg : String)
    (henv : environment = "dev" ∨ environment = "staging" ∨ environment = "prod")
    (hmiss : files ("kubernetes/values/" ++ environment ++ ".yaml") = none) :
    mainRun files template_env environment output_dir_arg =
      { events := [Event.mkdir (output_dir_arg ++ "/" ++ environment)],
        error := some PErr.configNotFound } := by
  unfold mainRun
  rw [if_pos henv]
  unfold load_values
  simp only [hmiss]

/-- Witness for c2_confignotfound_after_mkdir at a concrete empty
filesystem. -/
theorem c2_confignotfound_after_mkdir_witness :
    ("dev" = "dev" ∨ "dev" = "staging" ∨ "dev" = "prod") ∧
    ((fun _ => none : ValuesStore) "kubernetes/values/dev.yaml" = none) ∧
    mainRun (fun _ => none) (fun _ => none) "dev" "kubernetes/rendered" =
      { events := [Event.mkdir ("kubernetes/rendered" ++ "/" ++ "dev")],
        error := some PErr.configNotFound } :=
  ⟨Or.inl rfl, rfl,
    c2_confignotfound_after_mkdir (fun _ => none) (fun _ => none) "dev"
      "kubernetes/rendered" (Or.inl rfl) rfl⟩

/-- C3 counterexample: both services carry service_name "api", so the
derived names collide, yet the run succeeds with no OutputCollision: the
colliding names are written twice in production order (the later write
silently overwriting the earlier artifact on disk). -/
theorem c3_counterexample :
    (mainRun c3files c3store "dev" "out").error = none ∧
    writtenNames (mainRun c3files c3store "dev" "out").events =
      ["postgres-statefulset.yaml", "api-deployment.yaml", "api-service.yaml",
       "api-deployment.yaml", "api-service.yaml"] ∧
    ¬ (writtenNames (mainRun c3files c3store "dev" "out").events).Nodup := by
  refine ⟨rfl, rfl, ?_⟩
  have hw : writtenNames (mainRun c3files c3store "dev" "out").events =
      ["postgres-statefulset.yaml", "api-deployment.yaml", "api-service.yaml",
       "api-deployment.yaml", "api-service.yaml"] := rfl
  rw [hw]
  decide

/-- C3 (amended): when two render units derive the same output name the
pipeline does not fail: there is no collision check, the run succeeds,
and both artifacts are produced in production order with the same name
(so the later one overwrites the earlier on disk). -/
theorem c3_collision_overwrites (s : String) :
    ∃ fs, renderAll c3store (insertKV (collideVals s) "b64encode" Value.vfunc)
        = (fs, none) ∧
      fs.map (fun f => f.name) =
        ["postgres-statefulset.yaml",
         s ++ "-" ++ "deployment.yaml", s ++ "-" ++ "service.yaml",
         s ++ "-" ++ "deployment.yaml", s ++ "-" ++ "service.yaml"] :=
  ⟨_, rfl, rfl⟩

/-- C4: on every successful run, exactly one aggregator is written, it is
the last event (after the mkdir and every artifact write), its resources
list the produced artifact names in exact production order with no
deduplication or resorting, its count is 1 shared + 2 x 2 services +
(1 if the ingress guard held else 0), and the aggregator never lists
itself. -/
theorem c4_aggregator (files : ValuesStore) (template_env : TStore)
    (environment output_dir_arg : String)
    (h : (mainRun files template_env environment output_dir_arg).error = none) :
    ∃ values fs,
      load_values files environment = Except.ok values ∧
      renderAll template_env values = (fs, none) ∧
      (mainRun files template_env environment output_dir_arg).events =
        (Event.mkdir (output_dir_arg ++ "/" ++ environment) ::
          fs.map (fun f => Event.write f.name f.content)) ++
          [Event.writeK
            { apiVersion := "kustomize.config.k8s.io/v1beta1",
              kind := "Kustomization",
              resources := fs.map (fun f => f.name) }] ∧
      fs.length = 5 + (if ingressEnabled values then 1 else 0) ∧
      "kustomization.yaml" ∉ fs.map (fun f => f.name) := by
  obtain ⟨values, fs, hl, hra, hevents⟩ := mainRun_ok h
  obtain ⟨ns, ev, pg, psub, nsub, f1, f2, f3, f4, f5, tail,
    hns, hev2, hpg, hf1, hpsub, hf2, hf3, hnsub, hf4, hf5, hing, hfs⟩ :=
    renderAll_none hra
  refine ⟨values, fs, hl, hra, hevents, ?_, ?_⟩
  · rcases ingressStep_none hing with ⟨hien, htail⟩ |
      ⟨hien, ⟨ins, iev, inm, ihost, isvcs, f6, hif, htail⟩⟩
    · rw [hfs, htail, hien]
      simp
    · rw [hfs, htail, hien]
      simp
  · intro hmem
    rw [hfs] at hmem
    simp only [List.map_cons, List.mem_cons] at hmem
    have hn1 : f1.name = "postgres-statefulset.yaml" := by
      rw [render_template_name hf1, outputName_pg]
    have hn2 : f2.name = unitName (serviceContext values psub) "deployment.yaml" := by
      rw [render_template_name hf2, outputName_dep]
    have hn3 : f3.name = unitName (serviceContext values psub) "service.yaml" := by
      rw [render_template_name hf3, outputName_svc]
    have hn4 : f4.name = unitName (serviceContext values nsub) "deployment.yaml" := by
      rw [render_template_name hf4, outputName_dep]
    have hn5 : f5.name = unitName (serviceContext values nsub) "service.yaml" := by
      rw [render_template_name hf5, outputName_svc]
    rcases hmem with hmem | hmem | hmem | hmem | hmem | hmem
    · rw [hn1] at hmem
      exact absurd hmem (by decide)
    · rw [hn2] at hmem
      exact unitName_ne_kustom _ _ (Or.inl rfl) hmem.symm
    · rw [hn3] at hmem
      exact unitName_ne_kustom _ _ (Or.inr rfl) hmem.symm
    · rw [hn4] at hmem
      exact unitName_ne_kustom _ _ (Or.inl rfl) hmem.symm
    · rw [hn5] at hmem
      exact unitName_ne_kustom _ _ (Or.inr rfl) hmem.symm
    · rcases ingressStep_none hing with ⟨hien, htail⟩ |
        ⟨hien, ⟨ins, iev, inm, ihost, isvcs, f6, hif, htail⟩⟩
      · rw [htail] at hmem
        simp at hmem
      · rw [htail] at hmem
        simp only [List.map_cons, List.map_nil, List.mem_cons,
          List.not_mem_nil, or_false] at hmem
        have hn6 : f6.name = "ingress.yaml" := by
          rw [render_template_name hif, outputName_ing]
        rw [hn6] at hmem
        exact absurd hmem (by decide)

/-- Witness for c4_aggregator: the example run over exvals succeeds and
satisfies the aggregator contract. -/
theorem c4_aggregator_witness :
    (mainRun exfiles exstore "dev" "out").error = none ∧
    (∃ values fs,
      load_values exfiles "dev" = Except.ok values ∧
      renderAll exstore values = (fs, none) ∧
      (mainRun exfiles exstore "dev" "out").events =
        (Event.mkdir ("out" ++ "/" ++ "dev") ::
          fs.map (fun f => Event.write f.name f.content)) ++
          [Event.writeK
            { apiVersion := "kustomize.config.k8s.io/v1beta1",
              kind := "Kustomization",
              resources := fs.map (fun f => f.name) }] ∧
      fs.length = 5 + (if ingressEnabled values then 1 else 0) ∧
      "kustomization.yaml" ∉ fs.map (fun f => f.name)) :=
  ⟨rfl, c4_aggregator exfiles exstore "dev" "out" rfl⟩

/-- C5: for every successful render sequence, the artifact names are
derived deterministically: the template extension .j2 is swapped for
.yaml, the shared unit and the routing unit get no prefix, and each
service unit is prefixed with its service identifier and a dash exactly
when its composed context carries service_name. -/
theorem c5_naming (template_env : TStore) (values : Ctx) (fs : List RFile)
    (h : renderAll template_env values = (fs, none)) :
    ∃ psub nsub,
      getMapKey values "python_service" = Except.ok psub ∧
      getMapKey values "nodejs_service" = Except.ok nsub ∧
      fs.map (fun f => f.name) =
        ["postgres-statefulset.yaml",
         unitName (serviceContext values psub) "deployment.yaml",
         unitName (serviceContext values psub) "service.yaml",
         unitName (serviceContext values nsub) "deployment.yaml",
         unitName (serviceContext values nsub) "service.yaml"] ++
        (if ingressEnabled values then ["ingress.yaml"] else []) := by
  obtain ⟨ns, ev, pg, psub, nsub, f1, f2, f3, f4, f5, tail,
    hns, hev2, hpg, hf1, hpsub, hf2, hf3, hnsub, hf4, hf5, hing, hfs⟩ :=
    renderAll_none h
  refine ⟨psub, nsub, hpsub, hnsub, ?_⟩
  rw [hfs]
  simp only [List.map_cons, List.cons_append, List.nil_append]
  rw [render_template_name hf1, outputName_pg,
    render_template_name hf2, outputName_dep,
    render_template_name hf3, outputName_svc,
    render_template_name hf4, outputName_dep,
    render_template_name hf5, outputName_svc]
  rcases ingressStep_none hing with ⟨hien, htail⟩ |
      ⟨hien, ⟨ins, iev, inm, ihost, isvcs, f6, hif, htail⟩⟩
  · rw [htail, hien]
    simp
  · rw [htail, hien]
    simp only [List.map_cons, List.map_nil, if_true]
    rw [render_template_name hif, outputName_ing]

/-- Witness for c5_naming: the example run over exloaded. -/
theorem c5_naming_witness :
    renderAll exstore exloaded = (exfs, none) ∧
    (∃ psub nsub,
      getMapKey exloaded "python_service" = Except.ok psub ∧
      getMapKey exloaded "nodejs_service" = Except.ok nsub ∧
      exfs.map (fun f => f.name) =
        ["postgres-statefulset.yaml",
         unitName (serviceContext exloaded psub) "deployment.yaml",
         unitName (serviceContext exloaded psub) "service.yaml",
         unitName (serviceContext exloaded nsub) "deployment.yaml",
         unitName (serviceContext exloaded nsub) "service.yaml"] ++
        (if ingressEnabled exloaded then ["ingress.yaml"] else [])) :=
  ⟨rfl, c5_naming exstore exloaded exfs rfl⟩

/-- C6: the context composed for the shared PostgreSQL unit has exactly
the three keys namespace, environment and postgres, bound to the values
the tree holds under those keys, and no other key (in particular no
other global key of the value tree) occurs in it. -/
theorem c6_shared_context (values : Ctx) (ns ev pg : Value)
    (h1 : getKey values "namespace" = Except.ok ns)
    (h2 : getKey values "environment" = Except.ok ev)
    (h3 : getKey values "postgres" = Except.ok pg) :
    (postgresCtx ns ev pg).map Prod.fst =
      ["namespace", "environment", "postgres"] ∧
    lookup values "namespace" = some ns ∧
    lookup values "environment" = some ev ∧
    lookup values "postgres" = some pg ∧
    (∀ k, k ≠ "namespace" → k ≠ "environment" → k ≠ "postgres" →
      lookup (postgresCtx ns ev pg) k = none) := by
  refine ⟨rfl, getKey_ok h1, getKey_ok h2, getKey_ok h3, ?_⟩
  intro k hk1 hk2 hk3
  simp only [postgresCtx, lookup, if_neg hk1, if_neg hk2, if_neg hk3]

/-- Witness for c6_shared_context on the example loaded values. -/
theorem c6_shared_context_witness :
    getKey exloaded "namespace" = Except.ok (Value.vstr "demo") ∧
    getKey exloaded "environment" = Except.ok (Value.vstr "dev") ∧
    getKey exloaded "postgres" =
      Except.ok (Value.vmap [("storage_size", Value.vstr "1Gi")]) ∧
    ((postgresCtx (Value.vstr "demo") (Value.vstr "dev")
        (Value.vmap [("storage_size", Value.vstr "1Gi")])).map Prod.fst =
      ["namespace", "environment", "postgres"] ∧
    lookup exloaded "namespace" = some (Value.vstr "demo") ∧
    lookup exloaded "environment" = some (Value.vstr "dev") ∧
    lookup exloaded "postgres" =
      some (Value.vmap [("storage_size", Value.vstr "1Gi")]) ∧
    (∀ k, k ≠ "namespace" → k ≠ "environment" → k ≠ "postgres" →
      lookup (postgresCtx (Value.vstr "demo") (Value.vstr "dev")
        (Value.vmap [("storage_size", Value.vstr "1Gi")])) k = none)) :=
  ⟨rfl, rfl, rfl, c6_shared_context exloaded _ _ _ rfl rfl rfl⟩

/-- C7: the context composed for a service unit is the shallow merge of
the full loaded value tree with the service sub-mapping; on any key the
sub-mapping value wins when present, else the global value applies. -/
theorem c7_service_context (values sub : Ctx) (k : String)
    (hnd : (sub.map Prod.fst).Nodup) :
    lookup (serviceContext values sub) k =
      match lookup sub k with
      | some v => some v
      | none => lookup values k :=
  lookup_pymerge values sub k hnd

/-- Witness for c7_service_context: a service key overriding a global
key of the example tree. -/
theorem c7_service_context_witness :
    ((([("service_name", Value.vstr "api"), ("environment", Value.vint 7)]
        : Ctx).map Prod.fst).Nodup) ∧
    lookup (serviceContext exloaded
        [("service_name", Value.vstr "api"), ("environment", Value.vint 7)])
        "environment" =
      match lookup [("service_name", Value.vstr "api"),
          ("environment", Value.vint 7)] "environment" with
      | some v => some v
      | none => lookup exloaded "environment" :=
  ⟨by decide,
    c7_service_context exloaded
      [("service_name", Value.vstr "api"), ("environment", Value.vint 7)]
      "environment" (by decide)⟩

/-- C8 counterexample: c8vals carries ingress.enabled = the string
"false" (present, truthy, but not the boolean true); the claim says the
routing unit is rendered only when the flag is true, yet the run renders
the ingress artifact (and succeeds). -/
theorem c8_counterexample :
    lookup c8vals "ingress" = some (Value.vmap
      [("enabled", Value.vstr "false"), ("name", Value.vstr "ing"),
       ("host", Value.vstr "example.com"), ("services", Value.vlist [])]) ∧
    (mainRun c8files exstore "dev" "out").error = none ∧
    writtenNames (mainRun c8files exstore "dev" "out").events =
      ["postgres-statefulset.yaml", "api-deployment.yaml", "api-service.yaml",
       "web-deployment.yaml", "web-service.yaml", "ingress.yaml"] :=
  ⟨rfl, rfl, rfl⟩

/-- C8 (amended): the routing unit is skipped with no error when the
ingress mapping is absent, when its enabled flag is absent, and when the
flag is falsy (in particular the boolean false); it produces an artifact
only when the flag is present and truthy - any truthy value, not only
the boolean true, triggers the render. -/
theorem c8_routing_guard (template_env : TStore) (values : Ctx) :
    (lookup values "ingress" = none →
      ingressStep template_env values = ([], none)) ∧
    (∀ m, lookup values "ingress" = some (Value.vmap m) →
      lookup m "enabled" = none →
      ingressStep template_env values = ([], none)) ∧
    (∀ m en, lookup values "ingress" = some (Value.vmap m) →
      lookup m "enabled" = some en → truthy en = false →
      ingressStep template_env values = ([], none)) ∧
    (∀ tail, ingressStep template_env values = (tail, none) → tail ≠ [] →
      ingressEnabled values = true) := by
  refine ⟨?_, ?_, ?_, ?_⟩
  · intro hi
    unfold ingressStep
    simp only [hi]
  · intro m hi he
    unfold ingressStep
    simp only [hi, he]
  · intro m en hi he ht
    unfold ingressStep
    simp only [hi, he, ht]
    rfl
  · intro tail hstep hne
    rcases ingressStep_none hstep with ⟨_, htail⟩ | ⟨hien, _⟩
    · exact absurd htail hne
    · exact hien

/-- Witness for c8_routing_guard: the example tree has no ingress
mapping, so the routing unit is skipped without error. -/
theorem c8_routing_guard_witness :
    lookup exloaded "ingress" = none ∧
    ingressStep exstore exloaded = ([], none) :=
  ⟨rfl, (c8_routing_guard exstore exloaded).1 rfl⟩

/-- C9: the text-transform helper registered by the script (both as a
context value and as the Jinja2 filter) base64-encodes the UTF-8 bytes
of its single string argument: on "admin123" it yields "YWRtaW4xMjM=",
and for every input string the standard decode recovers the original
string. -/
theorem c9_b64_helper (s : String) :
    b64encode "admin123" = "YWRtaW4xMjM=" ∧
    b64decodeStr (b64encode s) = some s :=
  ⟨rfl, b64_roundtrip_str s⟩

/-- C10: load_values does not return the parsed document unchanged: it
adds the key b64encode bound to the encoding helper; consequently the
merged context of every service unit exposes b64encode (with the helper
as value unless the sub-mapping shadows the key, in which case the
sub-mapping value wins), while the shared PostgreSQL context and the
ingress context never contain that key. -/
theorem c10_loader (files : ValuesStore) (environment : String)
    (doc values : Ctx)
    (hdoc : files ("kubernetes/values/" ++ environment ++ ".yaml") = some doc)
    (hload : load_values files environment = Except.ok values)
    (hfresh : lookup doc "b64encode" = none) :
    values = doc ++ [("b64encode", Value.vfunc)] ∧
    values ≠ doc ∧
    lookup values "b64encode" = some Value.vfunc ∧
    (∀ sub : Ctx, lookup sub "b64encode" = none →
      lookup (serviceContext values sub) "b64encode" = some Value.vfunc) ∧
    (∀ (sub : Ctx) (w : Value), (sub.map Prod.fst).Nodup →
      lookup sub "b64encode" = some w →
      lookup (serviceContext values sub) "b64encode" = some w) ∧
    (∀ ns ev pg, lookup (postgresCtx ns ev pg) "b64encode" = none) ∧
    (∀ ns ev nm host svcs,
      lookup (ingressCtx ns ev nm host svcs) "b64encode" = none) := by
  unfold load_values at hload
  rw [hdoc] at hload
  simp only [Except.ok.injEq] at hload
  have hval : values = doc ++ [("b64encode", Value.vfunc)] := by
    rw [← hload]
    unfold insertKV
    rw [if_neg (by
      rw [containsKey_eq_false_of_lookup_none hfresh]
      simp)]
  have hlook : lookup values "b64encode" = some Value.vfunc := by
    rw [hval, lookup_append, hfresh]
    simp [lookup]
  refine ⟨hval, ?_, hlook, ?_, ?_, ?_, ?_⟩
  · intro heq
    rw [hval] at heq
    have hlen := congrArg List.length heq
    simp at hlen
  · intro sub hsub
    unfold serviceContext
    rw [lookup_pymerge_of_none _ _ _ hsub, hlook]
  · intro sub w hnd hsub
    unfold serviceContext
    rw [lookup_pymerge _ _ _ hnd, hsub]
  · intro ns ev pg
    rfl
  · intro ns ev nm host svcs
    rfl

/-- Witness for c10_loader on the example filesystem. -/
theorem c10_loader_witness :
    exfiles ("kubernetes/values/" ++ "dev" ++ ".yaml") = some exvals ∧
    load_values exfiles "dev" = Except.ok exloaded ∧
    lookup exvals "b64encode" = none ∧
    (exloaded = exvals ++ [("b64encode", Value.vfunc)] ∧
    exloaded ≠ exvals ∧
    lookup exloaded "b64encode" = some Value.vfunc ∧
    (∀ sub : Ctx, lookup sub "b64encode" = none →
      lookup (serviceContext exloaded sub) "b64encode" = some Value.vfunc) ∧
    (∀ (sub : Ctx) (w : Value), (sub.map Prod.fst).Nodup →
      lookup sub "b64encode" = some w →
      lookup (serviceContext exloaded sub) "b64encode" = some w) ∧
    (∀ ns ev pg, lookup (postgresCtx ns ev pg) "b64encode" = none) ∧
    (∀ ns ev nm host svcs,
      lookup (ingressCtx ns ev nm host svcs) "b64encode" = none)) :=
  ⟨rfl, rfl, rfl, c10_loader exfiles "dev" exvals exloaded rfl rfl rfl⟩
